import Mathlib

/-!
Verification development for the P2P ZK Wordle repository (kaleababayneh/mn-wordle).

The repository's protocol engine is a Compact smart contract whose compiled form
is consumed by the TypeScript simulator (`src/contract/src/test/p2p-wordle-simulator.ts`),
the test suite (`src/contract/src/test/wordle.test.ts`), the witness module
(`src/unnamed/part_006`), and the API layer (`src/unnamed/part_001`,
`src/api/src/index.ts`).  The contract's `.compact` source file is not part of
the repository snapshot; the circuits quoted verbatim in the repository's own
documentation (`src/unnamed/part_004`) are embedded from those quotations, and
the remaining circuits (the game state machine and the guess evaluator) are
modelled from the specification, with the test suite as the oracle for assert
ordering and failure names.
-/

namespace Wordle

/-- The `Word` struct of the contract: five letter values (8-bit character
codes), mirroring `Word` in the simulator (`stringToWord` builds
`{first_letter, ..., fifth_letter}` from char codes). -/
structure Word where
  first_letter : Nat
  second_letter : Nat
  third_letter : Nat
  fourth_letter : Nat
  fifth_letter : Nat
deriving Repr, DecidableEq

/-- The `GuessResult` struct of the contract: five per-position scores, each
in {0,1,2}, mirroring `{first_letter_result, ..., fifth_letter_result}` read
by the tests. -/
structure GuessResult where
  first_letter_result : Nat
  second_letter_result : Nat
  third_letter_result : Nat
  fourth_letter_result : Nat
  fifth_letter_result : Nat
deriving Repr, DecidableEq

/-- The five letters of a word, in position order. -/
def wordLetters (w : Word) : List Nat :=
  [w.first_letter, w.second_letter, w.third_letter, w.fourth_letter, w.fifth_letter]

/-- The letter of a word at a given position. -/
def letterAt (w : Word) : Fin 5 → Nat
  | ⟨0, _⟩ => w.first_letter
  | ⟨1, _⟩ => w.second_letter
  | ⟨2, _⟩ => w.third_letter
  | ⟨3, _⟩ => w.fourth_letter
  | ⟨4, _⟩ => w.fifth_letter

/-- The score of a guess result at a given position. -/
def scoreAt (r : GuessResult) : Fin 5 → Nat
  | ⟨0, _⟩ => r.first_letter_result
  | ⟨1, _⟩ => r.second_letter_result
  | ⟨2, _⟩ => r.third_letter_result
  | ⟨3, _⟩ => r.fourth_letter_result
  | ⟨4, _⟩ => r.fifth_letter_result

/-- Whether a letter code occurs anywhere in a word. -/
def containsLetter (w : Word) (c : Nat) : Bool :=
  (c == w.first_letter) || (c == w.second_letter) || (c == w.third_letter) ||
    (c == w.fourth_letter) || (c == w.fifth_letter)

lemma containsLetter_iff (w : Word) (c : Nat) :
    containsLetter w c = true ↔ c ∈ wordLetters w := by
  simp [containsLetter, wordLetters, or_assoc]

/-- Modelled from the spec: the per-position scoring rule of the guess
evaluator (§4.4) — the `evaluate` circuit of the contract is not in the
repository snapshot.  Score 2 on positional match, otherwise 1 if the guessed
letter occurs anywhere in the secret word, otherwise 0 (pure presence test,
no duplicate-letter pool). -/
def letterScore (g c : Nat) (secret : Word) : Nat :=
  if g = c then 2 else if containsLetter secret g then 1 else 0

/-- Modelled from the spec: the guess evaluator `evaluate(guess, secret)`
(§4.4), applied independently at each of the five positions, as corroborated
by the evaluation tests in `wordle.test.ts` and `src/unnamed/part_005`. -/
def evaluate (guess secret : Word) : GuessResult where
  first_letter_result := letterScore guess.first_letter secret.first_letter secret
  second_letter_result := letterScore guess.second_letter secret.second_letter secret
  third_letter_result := letterScore guess.third_letter secret.third_letter secret
  fourth_letter_result := letterScore guess.fourth_letter secret.fourth_letter secret
  fifth_letter_result := letterScore guess.fifth_letter secret.fifth_letter secret

/-- Whether a guess result is all-2s (every letter in the correct position). -/
def allCorrect (r : GuessResult) : Bool :=
  (r.first_letter_result == 2) && (r.second_letter_result == 2) &&
    (r.third_letter_result == 2) && (r.fourth_letter_result == 2) &&
    (r.fifth_letter_result == 2)

/-! ### Hashing and identity

`persistentHash` is an external cryptographic primitive of the Compact
runtime.  It is modelled by executable injective encoders (one per input
shape used by the contract); the claims settled here depend only on which
inputs flow into each hash, never on collision behaviour. -/

/-- Stand-in for `persistentHash<Vector<5, Uint<8>>>` applied to a word. -/
def persistentHashWord (w : Word) : List Nat :=
  5 :: wordLetters w

/-- Stand-in for `persistentHash<Vector<2, Bytes<32>>>`. -/
def persistentHashPair (a b : List Nat) : List Nat :=
  2 :: (a ++ 256 :: b)

/-- Stand-in for `persistentHash<Vector<3, Bytes<32>>>`. -/
def persistentHashTriple (a b c : List Nat) : List Nat :=
  3 :: (a ++ 256 :: b ++ 256 :: c)

/-- The bytes of `pad(32, "wordle:pk:")`: the ASCII codes of `wordle:pk:`
padded with zero bytes to length 32. -/
def wordlePkPad : List Nat :=
  [119, 111, 114, 100, 108, 101, 58, 112, 107, 58] ++ List.replicate 22 0

/-- The `public_key` circuit, from the snippet in `src/unnamed/part_004`:
`persistentHash<Vector<2, Bytes<32>>>([pad(32, "wordle:pk:"), sk])`.
Its only inputs are the fixed pad and the secret key. -/
def public_key (sk : List Nat) : List Nat :=
  persistentHashPair wordlePkPad sk

/-- The player identity the API derives for a deployed game instance at a
given contract address: `pureCircuits.public_key(privateState.secretKey)`
(`src/api/src/index.ts`, player detection; same call in
`src/unnamed/part_001`).  The contract address of the game instance is not
passed to the derivation. -/
def derivedIdentityInGame (contractAddress : List Nat) (sk : List Nat) : List Nat :=
  public_key sk

/-- The word-commitment scheme, from the snippet in `src/unnamed/part_004`:
`persistentHash<Vector<3, Bytes<32>>>([persistentHash<Vector<5, Uint<8>>>(word), salt, secret_key])`. -/
def commit (w : Word) (salt sk : List Nat) : List Nat :=
  persistentHashTriple (persistentHashWord w) salt sk

/-- Modelled from the spec: the two-stage commitment described in §4.2 —
first hash the raw word into a single digest, then hash the triple
(digest, salt, secret_key) into the commitment.  Used as the spec-side
definition for the refinement claim about the commitment structure. -/
def commitSpecTwoStage (w : Word) (salt sk : List Nat) : List Nat :=
  persistentHashTriple (persistentHashWord w) salt sk

/-! ### Private state (witnesses.ts and the API) -/

/-- `BBoardPrivateState` from `src/contract/src/witnesses.ts`
(= `src/unnamed/part_006`): the player's secret key, salt and word bytes. -/
structure PrivateState where
  secretKey : List Nat
  salt : List Nat
  word : List Nat
deriving Repr, DecidableEq

/-- `createBBoardPrivateState` from `witnesses.ts`. -/
def createBBoardPrivateState (secretKey salt word : List Nat) : PrivateState :=
  ⟨secretKey, salt, word⟩

/-- `WordleAPI.getPrivateState` (`src/unnamed/part_001`, lines 390-397):
return the existing private state if any, otherwise silently create one from
fresh random 32-byte secret key and salt and the fixed default word bytes
`[67, 82, 65, 78, 69]` ("CRANE").  The two fresh random byte strings are
parameters of the embedding. -/
def getPrivateState (existing : Option PrivateState)
    (freshSecretKey freshSalt : List Nat) : PrivateState :=
  match existing with
  | some ps => ps
  | none => createBBoardPrivateState freshSecretKey freshSalt [67, 82, 65, 78, 69]

/-- The `player_word` witness (`witnesses.ts`) turns the first five stored
word bytes into the contract `Word` value. -/
def bytesToWord (bs : List Nat) : Word where
  first_letter := bs.getD 0 0
  second_letter := bs.getD 1 0
  third_letter := bs.getD 2 0
  fourth_letter := bs.getD 3 0
  fifth_letter := bs.getD 4 0

/-! ### The game state machine

Modelled from the spec (§4.3, §4.5, §7): the contract's `.compact` source is
not in the repository snapshot.  The `GAME_STATE` enum and the ledger field
names follow the simulator (`p2p-wordle-simulator.ts`) and the ledger reads
in `wordle.test.ts`; the assert ordering and the named failures follow the
failure messages asserted by `wordle.test.ts`.  The optional manual
verification entry point (§4.3: "not on the critical path and should not be
depended on for game progress") is not part of the modelled machine. -/

/-- The `GAME_STATE` enum of the contract (quoted in `src/unnamed/part_004`
and mirrored by `GAME_STATE` in the simulator). -/
inductive GAME_STATE where
  | waiting_p1
  | waiting_p2
  | p1_turn
  | p2_turn
  | p1_wins
  | p2_wins
  | draw
deriving Repr, DecidableEq

/-- The public ledger of one game instance, with the fields read by the test
suite: game state, both player identities, both word commitments, guess
counts, current guesses, last published results, plus the modelled
"outstanding unverified guess" markers of §4.3. -/
structure Ledger where
  game_state : GAME_STATE
  p1 : Option (List Nat)
  p2 : Option (List Nat)
  p1_word_hash : Option (List Nat)
  p2_word_hash : Option (List Nat)
  p1_guess_count : Nat
  p2_guess_count : Nat
  p1_current_guess : Word
  p2_current_guess : Word
  p1_guess_pending : Bool
  p2_guess_pending : Bool
  p1_last_guess_result : Option GuessResult
  p2_last_guess_result : Option GuessResult
deriving Repr, DecidableEq

/-- The ledger of a freshly deployed game: waiting for player 1, no player
records, zeroed guesses and counts. -/
def initialLedger : Ledger where
  game_state := GAME_STATE.waiting_p1
  p1 := none
  p2 := none
  p1_word_hash := none
  p2_word_hash := none
  p1_guess_count := 0
  p2_guess_count := 0
  p1_current_guess := ⟨0, 0, 0, 0, 0⟩
  p2_current_guess := ⟨0, 0, 0, 0, 0⟩
  p1_guess_pending := false
  p2_guess_pending := false
  p1_last_guess_result := none
  p2_last_guess_result := none

/-- The named failures of the protocol, one per precondition assert, named
after the assert messages observed by `wordle.test.ts` (for example
`gameNotWaitingP1` for the message `Game is not waiting for player 1`),
plus the generic witness failure of §7 (`proofInvalid`). -/
inductive WordleError where
  | gameNotWaitingP1
  | gameNotWaitingP2
  | cannotPlayAgainstYourself
  | notPlayer1GuessTurn
  | notPlayer2GuessTurn
  | youAreNotPlayer1
  | youAreNotPlayer2
  | proofInvalid
deriving Repr, DecidableEq

/-- Modelled from the spec: `join_p1` — from `WAITING_P1` the first joiner
becomes player 1, storing identity and word commitment and moving to
`WAITING_P2`; in any other state the call fails with the named assert
(`Game is not waiting for player 1` in the tests). -/
def join_p1 (ps : PrivateState) (l : Ledger) : Except WordleError Ledger :=
  if l.game_state = GAME_STATE.waiting_p1 then
    Except.ok { l with
      game_state := GAME_STATE.waiting_p2
      p1 := some (public_key ps.secretKey)
      p1_word_hash := some (commit (bytesToWord ps.word) ps.salt ps.secretKey) }
  else
    Except.error WordleError.gameNotWaitingP1

/-- Modelled from the spec: `join_p2` — from `WAITING_P2` the second joiner
becomes player 2 and the game moves to `P1_GUESS_TURN`; fails when the game
is not awaiting player 2, and fails with `Cannot play against yourself` when
the joining identity equals player 1's identity. -/
def join_p2 (ps : PrivateState) (l : Ledger) : Except WordleError Ledger :=
  if l.game_state = GAME_STATE.waiting_p2 then
    if l.p1 = some (public_key ps.secretKey) then
      Except.error WordleError.cannotPlayAgainstYourself
    else
      Except.ok { l with
        game_state := GAME_STATE.p1_turn
        p2 := some (public_key ps.secretKey)
        p2_word_hash := some (commit (bytesToWord ps.word) ps.salt ps.secretKey) }
  else
    Except.error WordleError.gameNotWaitingP2

/-- Modelled from the spec: the successful body of `turn_player1` (§4.3) —
if player 2 has an outstanding unverified guess, evaluate it against player
1's word and publish the result; then record player 1's own guess and
increment their count; finally transition to `P2_WINS` on an all-correct
verified score, to `DRAW` when both players have exhausted 6 guesses with no
win, otherwise to `P2_GUESS_TURN`. -/
def turn_player1Body (ps : PrivateState) (guess : Word) (l : Ledger) : Ledger :=
  if l.p2_guess_pending then
    { l with
      p2_guess_pending := false
      p2_last_guess_result := some (evaluate l.p2_current_guess (bytesToWord ps.word))
      p1_current_guess := guess
      p1_guess_pending := true
      p1_guess_count := l.p1_guess_count + 1
      game_state :=
        if allCorrect (evaluate l.p2_current_guess (bytesToWord ps.word)) then
          GAME_STATE.p2_wins
        else if l.p1_guess_count + 1 = 6 ∧ l.p2_guess_count = 6 then GAME_STATE.draw
        else GAME_STATE.p2_turn }
  else
    { l with
      p1_current_guess := guess
      p1_guess_pending := true
      p1_guess_count := l.p1_guess_count + 1
      game_state :=
        if l.p1_guess_count + 1 = 6 ∧ l.p2_guess_count = 6 then GAME_STATE.draw
        else GAME_STATE.p2_turn }

/-- Modelled from the spec: `turn_player1` — asserts, in the order fixed by
the test suite, that it is player 1's guess turn, that the caller's identity
is player 1's, and (§4.5) that the caller's witness matches the stored word
commitment; then runs the transition body. -/
def turn_player1 (ps : PrivateState) (guess : Word) (l : Ledger) :
    Except WordleError Ledger :=
  if l.game_state = GAME_STATE.p1_turn then
    if l.p1 = some (public_key ps.secretKey) then
      if l.p1_word_hash = some (commit (bytesToWord ps.word) ps.salt ps.secretKey) then
        Except.ok (turn_player1Body ps guess l)
      else Except.error WordleError.proofInvalid
    else Except.error WordleError.youAreNotPlayer1
  else Except.error WordleError.notPlayer1GuessTurn

/-- Modelled from the spec: the successful body of `turn_player2` (§4.3) —
verify player 1's outstanding guess against player 2's word, publish the
result, record player 2's own guess, and transition to `P1_WINS`, `DRAW` or
`P1_GUESS_TURN`. -/
def turn_player2Body (ps : PrivateState) (guess : Word) (l : Ledger) : Ledger :=
  if l.p1_guess_pending then
    { l with
      p1_guess_pending := false
      p1_last_guess_result := some (evaluate l.p1_current_guess (bytesToWord ps.word))
      p2_current_guess := guess
      p2_guess_pending := true
      p2_guess_count := l.p2_guess_count + 1
      game_state :=
        if allCorrect (evaluate l.p1_current_guess (bytesToWord ps.word)) then
          GAME_STATE.p1_wins
        else if l.p1_guess_count = 6 ∧ l.p2_guess_count + 1 = 6 then GAME_STATE.draw
        else GAME_STATE.p1_turn }
  else
    { l with
      p2_current_guess := guess
      p2_guess_pending := true
      p2_guess_count := l.p2_guess_count + 1
      game_state :=
        if l.p1_guess_count = 6 ∧ l.p2_guess_count + 1 = 6 then GAME_STATE.draw
        else GAME_STATE.p1_turn }

/-- Modelled from the spec: `turn_player2` — asserts that it is player 2's
guess turn, that the caller's identity is player 2's, and that the witness
matches the stored commitment; then runs the transition body. -/
def turn_player2 (ps : PrivateState) (guess : Word) (l : Ledger) :
    Except WordleError Ledger :=
  if l.game_state = GAME_STATE.p2_turn then
    if l.p2 = some (public_key ps.secretKey) then
      if l.p2_word_hash = some (commit (bytesToWord ps.word) ps.salt ps.secretKey) then
        Except.ok (turn_player2Body ps guess l)
      else Except.error WordleError.proofInvalid
    else Except.error WordleError.youAreNotPlayer2
  else Except.error WordleError.notPlayer2GuessTurn

/-- One externally invokable protocol call, with the private state the
calling client supplies as witness. -/
inductive Action where
  | joinP1 (ps : PrivateState)
  | joinP2 (ps : PrivateState)
  | turnP1 (ps : PrivateState) (guess : Word)
  | turnP2 (ps : PrivateState) (guess : Word)

/-- Dispatch one call against the ledger. -/
def applyAction (l : Ledger) (a : Action) : Except WordleError Ledger :=
  match a with
  | Action.joinP1 ps => join_p1 ps l
  | Action.joinP2 ps => join_p2 ps l
  | Action.turnP1 ps guess => turn_player1 ps guess l
  | Action.turnP2 ps guess => turn_player2 ps guess l

/-- Transactional semantics (§5): a call either fully succeeds, replacing the
ledger, or fully fails, leaving the ledger unchanged. -/
def stepOutcome (l : Ledger) (a : Action) : Ledger :=
  match applyAction l a with
  | Except.ok l2 => l2
  | Except.error _ => l

/-- Run a sequence of calls under the transactional semantics. -/
def runActions (l : Ledger) : List Action → Ledger
  | [] => l
  | a :: rest => runActions (stepOutcome l a) rest

/-- A ledger state reachable from deployment by some call sequence. -/
def Reachable (l : Ledger) : Prop :=
  ∃ acts : List Action, runActions initialLedger acts = l

/-- The protocol invariant maintained by every call: empty slots while the
game is still waiting, full guess counts in a draw, and no winning published
score outside the corresponding win state. -/
def Inv (l : Ledger) : Prop :=
  (l.game_state = GAME_STATE.waiting_p1 → l.p1 = none ∧ l.p1_word_hash = none) ∧
  (l.game_state = GAME_STATE.waiting_p1 ∨ l.game_state = GAME_STATE.waiting_p2 →
    l.p2 = none ∧ l.p2_word_hash = none) ∧
  (l.game_state = GAME_STATE.draw → l.p1_guess_count = 6 ∧ l.p2_guess_count = 6) ∧
  (l.game_state ≠ GAME_STATE.p1_wins →
    ∀ r, l.p1_last_guess_result = some r → allCorrect r = false) ∧
  (l.game_state ≠ GAME_STATE.p2_wins →
    ∀ r, l.p2_last_guess_result = some r → allCorrect r = false)

lemma inv_initialLedger : Inv initialLedger := by
  simp [Inv, initialLedger]

lemma inv_turn_player1Body (ps : PrivateState) (guess : Word) (l : Ledger)
    (h : Inv l) (hs : l.game_state = GAME_STATE.p1_turn) :
    Inv (turn_player1Body ps guess l) := by
  obtain ⟨h1, h2, h3, h4, h5⟩ := h
  have hp1 : l.game_state ≠ GAME_STATE.p1_wins := by rw [hs]; intro hx; cases hx
  have hp2 : l.game_state ≠ GAME_STATE.p2_wins := by rw [hs]; intro hx; cases hx
  by_cases hp : l.p2_guess_pending
  · by_cases hw : allCorrect (evaluate l.p2_current_guess (bytesToWord ps.word)) = true
    · have hbody : turn_player1Body ps guess l =
          { l with
            p2_guess_pending := false
            p2_last_guess_result := some (evaluate l.p2_current_guess (bytesToWord ps.word))
            p1_current_guess := guess
            p1_guess_pending := true
            p1_guess_count := l.p1_guess_count + 1
            game_state := GAME_STATE.p2_wins } := by
        simp [turn_player1Body, hp, hw]
      rw [hbody]
      exact ⟨fun hx => by simp at hx, fun hx => by simp at hx, fun hx => by simp at hx,
        fun _ r hr => h4 hp1 r hr, fun hx => absurd rfl hx⟩
    · have hw2 : allCorrect (evaluate l.p2_current_guess (bytesToWord ps.word)) = false := by
        revert hw; cases allCorrect (evaluate l.p2_current_guess (bytesToWord ps.word)) <;> simp
      by_cases hd : l.p1_guess_count + 1 = 6 ∧ l.p2_guess_count = 6
      · have hbody : turn_player1Body ps guess l =
            { l with
              p2_guess_pending := false
              p2_last_guess_result := some (evaluate l.p2_current_guess (bytesToWord ps.word))
              p1_current_guess := guess
              p1_guess_pending := true
              p1_guess_count := l.p1_guess_count + 1
              game_state := GAME_STATE.draw } := by
          simp [turn_player1Body, hp, hw2, hd.1, hd.2]
        rw [hbody]
        exact ⟨fun hx => by simp at hx, fun hx => by simp at hx, fun _ => ⟨hd.1, hd.2⟩,
          fun _ r hr => h4 hp1 r hr,
          fun _ r hr => by rw [Option.some_inj.mp hr.symm]; exact hw2⟩
      · have hbody : turn_player1Body ps guess l =
            { l with
              p2_guess_pending := false
              p2_last_guess_result := some (evaluate l.p2_current_guess (bytesToWord ps.word))
              p1_current_guess := guess
              p1_guess_pending := true
              p1_guess_count := l.p1_guess_count + 1
              game_state := GAME_STATE.p2_turn } := by
          have hd5 : ¬(l.p1_guess_count = 5 ∧ l.p2_guess_count = 6) := by omega
          simp [turn_player1Body, hp, hw2, hd5]
        rw [hbody]
        exact ⟨fun hx => by simp at hx, fun hx => by simp at hx, fun hx => by simp at hx,
          fun _ r hr => h4 hp1 r hr,
          fun _ r hr => by rw [Option.some_inj.mp hr.symm]; exact hw2⟩
  · by_cases hd : l.p1_guess_count + 1 = 6 ∧ l.p2_guess_count = 6
    · have hbody : turn_player1Body ps guess l =
          { l with
            p1_current_guess := guess
            p1_guess_pending := true
            p1_guess_count := l.p1_guess_count + 1
            game_state := GAME_STATE.draw } := by
        simp [turn_player1Body, hp, hd.1, hd.2]
      rw [hbody]
      exact ⟨fun hx => by simp at hx, fun hx => by simp at hx, fun _ => ⟨hd.1, hd.2⟩,
        fun _ r hr => h4 hp1 r hr, fun _ r hr => h5 hp2 r hr⟩
    · have hbody : turn_player1Body ps guess l =
          { l with
            p1_current_guess := guess
            p1_guess_pending := true
            p1_guess_count := l.p1_guess_count + 1
            game_state := GAME_STATE.p2_turn } := by
        have hd5 : ¬(l.p1_guess_count = 5 ∧ l.p2_guess_count = 6) := by omega
        simp [turn_player1Body, hp, hd5]
      rw [hbody]
      exact ⟨fun hx => by simp at hx, fun hx => by simp at hx, fun hx => by simp at hx,
        fun _ r hr => h4 hp1 r hr, fun _ r hr => h5 hp2 r hr⟩

lemma inv_turn_player2Body (ps : PrivateState) (guess : Word) (l : Ledger)
    (h : Inv l) (hs : l.game_state = GAME_STATE.p2_turn) :
    Inv (turn_player2Body ps guess l) := by
  obtain ⟨h1, h2, h3, h4, h5⟩ := h
  have hp1 : l.game_state ≠ GAME_STATE.p1_wins := by rw [hs]; intro hx; cases hx
  have hp2 : l.game_state ≠ GAME_STATE.p2_wins := by rw [hs]; intro hx; cases hx
  by_cases hp : l.p1_guess_pending
  · by_cases hw : allCorrect (evaluate l.p1_current_guess (bytesToWord ps.word)) = true
    · have hbody : turn_player2Body ps guess l =
          { l with
            p1_guess_pending := false
            p1_last_guess_result := some (evaluate l.p1_current_guess (bytesToWord ps.word))
            p2_current_guess := guess
            p2_guess_pending := true
            p2_guess_count := l.p2_guess_count + 1
            game_state := GAME_STATE.p1_wins } := by
        simp [turn_player2Body, hp, hw]
      rw [hbody]
      exact ⟨fun hx => by simp at hx, fun hx => by simp at hx, fun hx => by simp at hx,
        fun hx => absurd rfl hx, fun _ r hr => h5 hp2 r hr⟩
    · have hw2 : allCorrect (evaluate l.p1_current_guess (bytesToWord ps.word)) = false := by
        revert hw; cases allCorrect (evaluate l.p1_current_guess (bytesToWord ps.word)) <;> simp
      by_cases hd : l.p1_guess_count = 6 ∧ l.p2_guess_count + 1 = 6
      · have hbody : turn_player2Body ps guess l =
            { l with
              p1_guess_pending := false
              p1_last_guess_result := some (evaluate l.p1_current_guess (bytesToWord ps.word))
              p2_current_guess := guess
              p2_guess_pending := true
              p2_guess_count := l.p2_guess_count + 1
              game_state := GAME_STATE.draw } := by
          simp [turn_player2Body, hp, hw2, hd.1, hd.2]
        rw [hbody]
        exact ⟨fun hx => by simp at hx, fun hx => by simp at hx, fun _ => ⟨hd.1, hd.2⟩,
          fun _ r hr => by rw [Option.some_inj.mp hr.symm]; exact hw2,
          fun _ r hr => h5 hp2 r hr⟩
      · have hbody : turn_player2Body ps guess l =
            { l with
              p1_guess_pending := false
              p1_last_guess_result := some (evaluate l.p1_current_guess (bytesToWord ps.word))
              p2_current_guess := guess
              p2_guess_pending := true
              p2_guess_count := l.p2_guess_count + 1
              game_state := GAME_STATE.p1_turn } := by
          have hd5 : ¬(l.p1_guess_count = 6 ∧ l.p2_guess_count = 5) := by omega
          simp [turn_player2Body, hp, hw2, hd5]
        rw [hbody]
        exact ⟨fun hx => by simp at hx, fun hx => by simp at hx, fun hx => by simp at hx,
          fun _ r hr => by rw [Option.some_inj.mp hr.symm]; exact hw2,
          fun _ r hr => h5 hp2 r hr⟩
  · by_cases hd : l.p1_guess_count = 6 ∧ l.p2_guess_count + 1 = 6
    · have hbody : turn_player2Body ps guess l =
          { l with
            p2_current_guess := guess
            p2_guess_pending := true
            p2_guess_count := l.p2_guess_count + 1
            game_state := GAME_STATE.draw } := by
        simp [turn_player2Body, hp, hd.1, hd.2]
      rw [hbody]
      exact ⟨fun hx => by simp at hx, fun hx => by simp at hx, fun _ => ⟨hd.1, hd.2⟩,
        fun _ r hr => h4 hp1 r hr, fun _ r hr => h5 hp2 r hr⟩
    · have hbody : turn_player2Body ps guess l =
          { l with
            p2_current_guess := guess
            p2_guess_pending := true
            p2_guess_count := l.p2_guess_count + 1
            game_state := GAME_STATE.p1_turn } := by
        have hd5 : ¬(l.p1_guess_count = 6 ∧ l.p2_guess_count = 5) := by omega
        simp [turn_player2Body, hp, hd5]
      rw [hbody]
      exact ⟨fun hx => by simp at hx, fun hx => by simp at hx, fun hx => by simp at hx,
        fun _ r hr => h4 hp1 r hr, fun _ r hr => h5 hp2 r hr⟩

lemma inv_stepOutcome (l : Ledger) (a : Action) (h : Inv l) :
    Inv (stepOutcome l a) := by
  cases a with
  | joinP1 ps =>
      by_cases hs : l.game_state = GAME_STATE.waiting_p1
      · have hstep : stepOutcome l (Action.joinP1 ps) =
            { l with
              game_state := GAME_STATE.waiting_p2
              p1 := some (public_key ps.secretKey)
              p1_word_hash := some (commit (bytesToWord ps.word) ps.salt ps.secretKey) } := by
          simp [stepOutcome, applyAction, join_p1, hs]
        obtain ⟨h1, h2, h3, h4, h5⟩ := h
        rw [hstep]
        refine ⟨?_, ?_, ?_, ?_, ?_⟩ <;> simp
        · exact h2 (Or.inl hs)
        · exact fun r hr => h4 (by rw [hs]; intro hx; cases hx) r hr
        · exact fun r hr => h5 (by rw [hs]; intro hx; cases hx) r hr
      · have hstep : stepOutcome l (Action.joinP1 ps) = l := by
          simp [stepOutcome, applyAction, join_p1, hs]
        rw [hstep]; exact h
  | joinP2 ps =>
      by_cases hs : l.game_state = GAME_STATE.waiting_p2
      · by_cases hself : l.p1 = some (public_key ps.secretKey)
        · have hstep : stepOutcome l (Action.joinP2 ps) = l := by
            simp [stepOutcome, applyAction, join_p2, hs, hself]
          rw [hstep]; exact h
        · have hstep : stepOutcome l (Action.joinP2 ps) =
              { l with
                game_state := GAME_STATE.p1_turn
                p2 := some (public_key ps.secretKey)
                p2_word_hash := some (commit (bytesToWord ps.word) ps.salt ps.secretKey) } := by
            simp [stepOutcome, applyAction, join_p2, hs, hself]
          obtain ⟨h1, h2, h3, h4, h5⟩ := h
          rw [hstep]
          refine ⟨?_, ?_, ?_, ?_, ?_⟩ <;> simp
          · exact fun r hr => h4 (by rw [hs]; intro hx; cases hx) r hr
          · exact fun r hr => h5 (by rw [hs]; intro hx; cases hx) r hr
      · have hstep : stepOutcome l (Action.joinP2 ps) = l := by
          simp [stepOutcome, applyAction, join_p2, hs]
        rw [hstep]; exact h
  | turnP1 ps guess =>
      by_cases hs : l.game_state = GAME_STATE.p1_turn
      · by_cases hid : l.p1 = some (public_key ps.secretKey)
        · by_cases hh : l.p1_word_hash =
              some (commit (bytesToWord ps.word) ps.salt ps.secretKey)
          · have hstep : stepOutcome l (Action.turnP1 ps guess) =
                turn_player1Body ps guess l := by
              simp [stepOutcome, applyAction, turn_player1, hs, hid, hh]
            rw [hstep]; exact inv_turn_player1Body ps guess l h hs
          · have hstep : stepOutcome l (Action.turnP1 ps guess) = l := by
              simp [stepOutcome, applyAction, turn_player1, hs, hid, hh]
            rw [hstep]; exact h
        · have hstep : stepOutcome l (Action.turnP1 ps guess) = l := by
            simp [stepOutcome, applyAction, turn_player1, hs, hid]
          rw [hstep]; exact h
      · have hstep : stepOutcome l (Action.turnP1 ps guess) = l := by
          simp [stepOutcome, applyAction, turn_player1, hs]
        rw [hstep]; exact h
  | turnP2 ps guess =>
      by_cases hs : l.game_state = GAME_STATE.p2_turn
      · by_cases hid : l.p2 = some (public_key ps.secretKey)
        · by_cases hh : l.p2_word_hash =
              some (commit (bytesToWord ps.word) ps.salt ps.secretKey)
          · have hstep : stepOutcome l (Action.turnP2 ps guess) =
                turn_player2Body ps guess l := by
              simp [stepOutcome, applyAction, turn_player2, hs, hid, hh]
            rw [hstep]; exact inv_turn_player2Body ps guess l h hs
          · have hstep : stepOutcome l (Action.turnP2 ps guess) = l := by
              simp [stepOutcome, applyAction, turn_player2, hs, hid, hh]
            rw [hstep]; exact h
        · have hstep : stepOutcome l (Action.turnP2 ps guess) = l := by
            simp [stepOutcome, applyAction, turn_player2, hs, hid]
          rw [hstep]; exact h
      · have hstep : stepOutcome l (Action.turnP2 ps guess) = l := by
          simp [stepOutcome, applyAction, turn_player2, hs]
        rw [hstep]; exact h

lemma inv_runActions (l : Ledger) (acts : List Action) (h : Inv l) :
    Inv (runActions l acts) := by
  induction acts generalizing l with
  | nil => exact h
  | cons a rest ih => exact ih (stepOutcome l a) (inv_stepOutcome l a h)

lemma reachable_inv (l : Ledger) (h : Reachable l) : Inv l := by
  obtain ⟨acts, hacts⟩ := h
  rw [← hacts]
  exact inv_runActions initialLedger acts inv_initialLedger

lemma turn_player1Body_frame (ps : PrivateState) (guess : Word) (l : Ledger) :
    (turn_player1Body ps guess l).p2 = l.p2 ∧
    (turn_player1Body ps guess l).p2_word_hash = l.p2_word_hash ∧
    (turn_player1Body ps guess l).p2_current_guess = l.p2_current_guess ∧
    (turn_player1Body ps guess l).p2_guess_count = l.p2_guess_count ∧
    (turn_player1Body ps guess l).p1 = l.p1 ∧
    (turn_player1Body ps guess l).p1_word_hash = l.p1_word_hash ∧
    (turn_player1Body ps guess l).p1_current_guess = guess ∧
    (turn_player1Body ps guess l).p1_guess_count = l.p1_guess_count + 1 := by
  unfold turn_player1Body
  split <;> exact ⟨rfl, rfl, rfl, rfl, rfl, rfl, rfl, rfl⟩

lemma turn_player2Body_frame (ps : PrivateState) (guess : Word) (l : Ledger) :
    (turn_player2Body ps guess l).p1 = l.p1 ∧
    (turn_player2Body ps guess l).p1_word_hash = l.p1_word_hash ∧
    (turn_player2Body ps guess l).p1_current_guess = l.p1_current_guess ∧
    (turn_player2Body ps guess l).p1_guess_count = l.p1_guess_count ∧
    (turn_player2Body ps guess l).p2 = l.p2 ∧
    (turn_player2Body ps guess l).p2_word_hash = l.p2_word_hash ∧
    (turn_player2Body ps guess l).p2_current_guess = guess ∧
    (turn_player2Body ps guess l).p2_guess_count = l.p2_guess_count + 1 := by
  unfold turn_player2Body
  split <;> exact ⟨rfl, rfl, rfl, rfl, rfl, rfl, rfl, rfl⟩

lemma word_hash_stepOutcome (l : Ledger) (a : Action) (hInv : Inv l) :
    (∀ c, l.p1_word_hash = some c → (stepOutcome l a).p1_word_hash = some c) ∧
    (∀ c, l.p2_word_hash = some c → (stepOutcome l a).p2_word_hash = some c) := by
  cases a with
  | joinP1 ps =>
      by_cases hs : l.game_state = GAME_STATE.waiting_p1
      · have h1 := hInv.1 hs
        have h2 := hInv.2.1 (Or.inl hs)
        have hstep : stepOutcome l (Action.joinP1 ps) =
            { l with
              game_state := GAME_STATE.waiting_p2
              p1 := some (public_key ps.secretKey)
              p1_word_hash := some (commit (bytesToWord ps.word) ps.salt ps.secretKey) } := by
          simp [stepOutcome, applyAction, join_p1, hs]
        constructor
        · intro c hc; rw [h1.2] at hc; cases hc
        · intro c hc; rw [h2.2] at hc; cases hc
      · have hstep : stepOutcome l (Action.joinP1 ps) = l := by
          simp [stepOutcome, applyAction, join_p1, hs]
        rw [hstep]; exact ⟨fun _ hc => hc, fun _ hc => hc⟩
  | joinP2 ps =>
      by_cases hs : l.game_state = GAME_STATE.waiting_p2
      · by_cases hself : l.p1 = some (public_key ps.secretKey)
        · have hstep : stepOutcome l (Action.joinP2 ps) = l := by
            simp [stepOutcome, applyAction, join_p2, hs, hself]
          rw [hstep]; exact ⟨fun _ hc => hc, fun _ hc => hc⟩
        · have h2 := hInv.2.1 (Or.inr hs)
          have hstep : stepOutcome l (Action.joinP2 ps) =
              { l with
                game_state := GAME_STATE.p1_turn
                p2 := some (public_key ps.secretKey)
                p2_word_hash := some (commit (bytesToWord ps.word) ps.salt ps.secretKey) } := by
            simp [stepOutcome, applyAction, join_p2, hs, hself]
          constructor
          · intro c hc; rw [hstep]; exact hc
          · intro c hc; rw [h2.2] at hc; cases hc
      · have hstep : stepOutcome l (Action.joinP2 ps) = l := by
          simp [stepOutcome, applyAction, join_p2, hs]
        rw [hstep]; exact ⟨fun _ hc => hc, fun _ hc => hc⟩
  | turnP1 ps guess =>
      by_cases hok : l.game_state = GAME_STATE.p1_turn ∧
          l.p1 = some (public_key ps.secretKey) ∧
          l.p1_word_hash = some (commit (bytesToWord ps.word) ps.salt ps.secretKey)
      · have hstep : stepOutcome l (Action.turnP1 ps guess) =
            turn_player1Body ps guess l := by
          simp [stepOutcome, applyAction, turn_player1, hok.1, hok.2.1, hok.2.2]
        rw [hstep]
        exact ⟨fun c hc => ((turn_player1Body_frame ps guess l).2.2.2.2.2.1).trans hc,
          fun c hc => ((turn_player1Body_frame ps guess l).2.1).trans hc⟩
      · have hstep : stepOutcome l (Action.turnP1 ps guess) = l := by
          by_cases hs : l.game_state = GAME_STATE.p1_turn
          · by_cases hid : l.p1 = some (public_key ps.secretKey)
            · have hh : ¬l.p1_word_hash =
                  some (commit (bytesToWord ps.word) ps.salt ps.secretKey) := by
                intro hx; exact hok ⟨hs, hid, hx⟩
              simp [stepOutcome, applyAction, turn_player1, hs, hid, hh]
            · simp [stepOutcome, applyAction, turn_player1, hs, hid]
          · simp [stepOutcome, applyAction, turn_player1, hs]
        rw [hstep]; exact ⟨fun _ hc => hc, fun _ hc => hc⟩
  | turnP2 ps guess =>
      by_cases hok : l.game_state = GAME_STATE.p2_turn ∧
          l.p2 = some (public_key ps.secretKey) ∧
          l.p2_word_hash = some (commit (bytesToWord ps.word) ps.salt ps.secretKey)
      · have hstep : stepOutcome l (Action.turnP2 ps guess) =
            turn_player2Body ps guess l := by
          simp [stepOutcome, applyAction, turn_player2, hok.1, hok.2.1, hok.2.2]
        rw [hstep]
        exact ⟨fun c hc => ((turn_player2Body_frame ps guess l).2.1).trans hc,
          fun c hc => ((turn_player2Body_frame ps guess l).2.2.2.2.2.1).trans hc⟩
      · have hstep : stepOutcome l (Action.turnP2 ps guess) = l := by
          by_cases hs : l.game_state = GAME_STATE.p2_turn
          · by_cases hid : l.p2 = some (public_key ps.secretKey)
            · have hh : ¬l.p2_word_hash =
                  some (commit (bytesToWord ps.word) ps.salt ps.secretKey) := by
                intro hx; exact hok ⟨hs, hid, hx⟩
              simp [stepOutcome, applyAction, turn_player2, hs, hid, hh]
            · simp [stepOutcome, applyAction, turn_player2, hs, hid]
          · simp [stepOutcome, applyAction, turn_player2, hs]
        rw [hstep]; exact ⟨fun _ hc => hc, fun _ hc => hc⟩

/-! ### Concrete sample data

Words and players taken from the scenarios in `wordle.test.ts` and
`src/unnamed/part_005` ("CRANE" vs "SLATE", guesses "SLIME", "WRONG", ...,
and the "SWORD"/"JELLY" interference test with words "HELLO"/"WORLD").
Secret keys and salts are small concrete byte lists. -/

def craneW : Word := ⟨67, 82, 65, 78, 69⟩

def slateW : Word := ⟨83, 76, 65, 84, 69⟩

def slimeW : Word := ⟨83, 76, 73, 77, 69⟩

def wrongW : Word := ⟨87, 82, 79, 78, 71⟩

def dummyW : Word := ⟨68, 85, 77, 77, 89⟩

def guessW : Word := ⟨71, 85, 69, 83, 83⟩

def badlyW : Word := ⟨66, 65, 68, 76, 89⟩

def firstW : Word := ⟨70, 73, 82, 83, 84⟩

def trialW : Word := ⟨84, 82, 73, 65, 76⟩

def finalW : Word := ⟨70, 73, 78, 65, 76⟩

def swordW : Word := ⟨83, 87, 79, 82, 68⟩

def jellyW : Word := ⟨74, 69, 76, 76, 89⟩

def psCrane : PrivateState :=
  createBBoardPrivateState [1] [2] [67, 82, 65, 78, 69]

def psSlate : PrivateState :=
  createBBoardPrivateState [3] [4] [83, 76, 65, 84, 69]

def psHello : PrivateState :=
  createBBoardPrivateState [5] [6] [72, 69, 76, 76, 79]

def psWorld : PrivateState :=
  createBBoardPrivateState [7] [8] [87, 79, 82, 76, 68]

/-- The game after player 1 has joined with "CRANE". -/
def ledgerAfterP1Join : Ledger :=
  runActions initialLedger [Action.joinP1 psCrane]

/-- The game after both players have joined ("CRANE" vs "SLATE"). -/
def ledgerAfterJoins : Ledger :=
  runActions initialLedger [Action.joinP1 psCrane, Action.joinP2 psSlate]

/-- Player 1 has guessed player 2's word "SLATE" exactly. -/
def ledgerAfterSlateGuess : Ledger :=
  runActions initialLedger
    [Action.joinP1 psCrane, Action.joinP2 psSlate, Action.turnP1 psCrane slateW]

/-- Player 1 guessed wrong, player 2 guessed player 1's word "CRANE"
exactly; player 1's next call will verify it. -/
def ledgerBeforeP2Win : Ledger :=
  runActions initialLedger
    [Action.joinP1 psCrane, Action.joinP2 psSlate,
     Action.turnP1 psCrane wrongW, Action.turnP2 psSlate craneW]

/-- The "HELLO" vs "WORLD" game after player 1 has guessed "SWORD". -/
def ledgerAfterSword : Ledger :=
  runActions initialLedger
    [Action.joinP1 psHello, Action.joinP2 psWorld, Action.turnP1 psHello swordW]

/-- Eleven non-winning guesses of the draw scenario of `wordle.test.ts`:
both players exchange "WRONG", "GUESS", "BADLY", "FIRST", "TRIAL", "FINAL",
up to and including player 1's sixth guess. -/
def preDrawActs : List Action :=
  [Action.joinP1 psCrane, Action.joinP2 psSlate,
   Action.turnP1 psCrane wrongW, Action.turnP2 psSlate wrongW,
   Action.turnP1 psCrane guessW, Action.turnP2 psSlate guessW,
   Action.turnP1 psCrane badlyW, Action.turnP2 psSlate badlyW,
   Action.turnP1 psCrane firstW, Action.turnP2 psSlate firstW,
   Action.turnP1 psCrane trialW, Action.turnP2 psSlate trialW,
   Action.turnP1 psCrane finalW]

/-- The full draw scenario: both players use all six guesses, no winner. -/
def drawActs : List Action :=
  preDrawActs ++ [Action.turnP2 psSlate finalW]

lemma word_hash_runActions (l : Ledger) (acts : List Action) (hInv : Inv l) :
    (∀ c, l.p1_word_hash = some c → (runActions l acts).p1_word_hash = some c) ∧
    (∀ c, l.p2_word_hash = some c → (runActions l acts).p2_word_hash = some c) := by
  induction acts generalizing l with
  | nil => exact ⟨fun _ hc => hc, fun _ hc => hc⟩
  | cons a rest ih =>
      have hstep := word_hash_stepOutcome l a hInv
      have hrest := ih (stepOutcome l a) (inv_stepOutcome l a hInv)
      exact ⟨fun c hc => hrest.1 c (hstep.1 c hc),
        fun c hc => hrest.2 c (hstep.2 c hc)⟩

/-! ### The claims -/

/-- C1: for every 5-letter guess and secret, the evaluator returns five
per-position scores where position i scores 2 on a positional match,
otherwise 1 when the guessed letter occurs anywhere in the secret word,
otherwise 0 — a pure presence-anywhere test; in particular "SLIME" against
"SLATE" scores [2,2,0,0,2]. -/
theorem evaluate_presence_anywhere_scoring :
    (∀ (guess secret : Word) (i : Fin 5),
        scoreAt (evaluate guess secret) i =
          (if letterAt guess i = letterAt secret i then 2
           else if letterAt guess i ∈ wordLetters secret then 1 else 0)) ∧
    evaluate slimeW slateW = ⟨2, 2, 0, 0, 2⟩ := by
  constructor
  · intro guess secret i
    match i with
    | ⟨0, _⟩ => simp [scoreAt, letterAt, evaluate, letterScore, containsLetter_iff]
    | ⟨1, _⟩ => simp [scoreAt, letterAt, evaluate, letterScore, containsLetter_iff]
    | ⟨2, _⟩ => simp [scoreAt, letterAt, evaluate, letterScore, containsLetter_iff]
    | ⟨3, _⟩ => simp [scoreAt, letterAt, evaluate, letterScore, containsLetter_iff]
    | ⟨4, _⟩ => simp [scoreAt, letterAt, evaluate, letterScore, containsLetter_iff]
  · decide

/-- C2 counterexample: the derived player identity does not mix in the
game instance's contract address — the same secret key used in two distinct
game instances yields the same identity, refuting the claim at a concrete
input. -/
theorem identity_ignores_game_instance_cex :
    ([0] : List Nat) ≠ [1] ∧
    derivedIdentityInGame [0] [7] = derivedIdentityInGame [1] [7] :=
  ⟨by decide, rfl⟩

/-- C2 (amended): the derived player identity depends only on the secret
key — it equals `public_key(secret_key)` for every contract address, so the
same secret key yields the identical identity across unrelated game
instances. -/
theorem identity_independent_of_game_instance :
    ∀ (addr1 addr2 sk : List Nat),
      derivedIdentityInGame addr1 sk = derivedIdentityInGame addr2 sk ∧
      derivedIdentityInGame addr1 sk = public_key sk :=
  fun _ _ _ => ⟨rfl, rfl⟩

/-- C3: the word commitment is a two-stage hash — the raw word is hashed
into a single digest and the triple (digest, salt, secret_key) is hashed
into the published commitment; consequently the commitment depends on the
word only through the word digest. -/
theorem commit_two_stage :
    (∀ (w : Word) (salt sk : List Nat),
        commit w salt sk = commitSpecTwoStage w salt sk ∧
        commit w salt sk = persistentHashTriple (persistentHashWord w) salt sk) ∧
    (∀ (w1 w2 : Word) (salt sk : List Nat),
        persistentHashWord w1 = persistentHashWord w2 →
        commit w1 salt sk = commit w2 salt sk) := by
  refine ⟨fun w salt sk => ⟨rfl, rfl⟩, fun w1 w2 salt sk h => ?_⟩
  unfold commit
  rw [h]

/-- C3 witness: the two-stage equations at the concrete word "CRANE", with
the digest-equality hypothesis discharged at a concrete input. -/
theorem commit_two_stage_witness :
    commit craneW [2] [1] = commitSpecTwoStage craneW [2] [1] ∧
    commit craneW [2] [1] = commit craneW [2] [1] :=
  ⟨(commit_two_stage.1 craneW [2] [1]).1,
    commit_two_stage.2 craneW craneW [2] [1] rfl⟩

/-- C10: when no private state exists, the API creates one from the fresh
random bytes and the fixed default word bytes [67,82,65,78,69] ("CRANE");
an existing private state is returned unchanged; and a player who joins
with the defaulted state publishes the commitment of the word "CRANE". -/
theorem default_private_state_is_crane :
    (∀ freshSecretKey freshSalt : List Nat,
        getPrivateState none freshSecretKey freshSalt =
          createBBoardPrivateState freshSecretKey freshSalt [67, 82, 65, 78, 69]) ∧
    (∀ (ps : PrivateState) (freshSecretKey freshSalt : List Nat),
        getPrivateState (some ps) freshSecretKey freshSalt = ps) ∧
    (∀ freshSecretKey freshSalt : List Nat,
        join_p1 (getPrivateState none freshSecretKey freshSalt) initialLedger =
          Except.ok { initialLedger with
            game_state := GAME_STATE.waiting_p2
            p1 := some (public_key freshSecretKey)
            p1_word_hash := some (commit craneW freshSalt freshSecretKey) }) :=
  ⟨fun _ _ => rfl, fun _ _ _ => rfl, fun _ _ => rfl⟩

/-- C4: a pending guess whose evaluation is all-2s moves the game to the
guessing player's win state on the opponent's next processing call: player
1's winning guess verified inside `turn_player2` yields `p1_wins`, and
player 2's winning guess verified inside `turn_player1` yields `p2_wins`. -/
theorem all_correct_guess_yields_win :
    (∀ (ps : PrivateState) (g : Word) (l : Ledger),
        l.game_state = GAME_STATE.p2_turn →
        l.p2 = some (public_key ps.secretKey) →
        l.p2_word_hash = some (commit (bytesToWord ps.word) ps.salt ps.secretKey) →
        l.p1_guess_pending = true →
        allCorrect (evaluate l.p1_current_guess (bytesToWord ps.word)) = true →
        turn_player2 ps g l = Except.ok (turn_player2Body ps g l) ∧
        (turn_player2Body ps g l).game_state = GAME_STATE.p1_wins) ∧
    (∀ (ps : PrivateState) (g : Word) (l : Ledger),
        l.game_state = GAME_STATE.p1_turn →
        l.p1 = some (public_key ps.secretKey) →
        l.p1_word_hash = some (commit (bytesToWord ps.word) ps.salt ps.secretKey) →
        l.p2_guess_pending = true →
        allCorrect (evaluate l.p2_current_guess (bytesToWord ps.word)) = true →
        turn_player1 ps g l = Except.ok (turn_player1Body ps g l) ∧
        (turn_player1Body ps g l).game_state = GAME_STATE.p2_wins) := by
  constructor
  · intro ps g l hs hid hh hp hw
    constructor
    · simp [turn_player2, hs, hid, hh]
    · simp [turn_player2Body, hp, hw]
  · intro ps g l hs hid hh hp hw
    constructor
    · simp [turn_player1, hs, hid, hh]
    · simp [turn_player1Body, hp, hw]

/-- C4 witness: in the "CRANE" vs "SLATE" game, player 1 guesses "SLATE"
exactly and player 2's next call ends in `p1_wins`; symmetrically, player 2
guesses "CRANE" exactly and player 1's next call ends in `p2_wins`. -/
theorem all_correct_guess_yields_win_witness :
    (turn_player2Body psSlate wrongW ledgerAfterSlateGuess).game_state =
      GAME_STATE.p1_wins ∧
    (turn_player1Body psCrane dummyW ledgerBeforeP2Win).game_state =
      GAME_STATE.p2_wins :=
  ⟨(all_correct_guess_yields_win.1 psSlate wrongW ledgerAfterSlateGuess
      (by decide) (by decide) (by decide) (by decide) (by decide)).2,
   (all_correct_guess_yields_win.2 psCrane dummyW ledgerBeforeP2Win
      (by decide) (by decide) (by decide) (by decide) (by decide)).2⟩

/-- C5: the draw transition — when player 1 has made six evaluated,
non-winning guesses and player 2 submits their own sixth guess, the game
moves to `DRAW`; and conversely every reachable `DRAW` state has both guess
counts equal to six with no winning published score for either player. -/
theorem draw_iff_both_exhausted :
    (∀ (ps : PrivateState) (g : Word) (l : Ledger),
        l.game_state = GAME_STATE.p2_turn →
        l.p2 = some (public_key ps.secretKey) →
        l.p2_word_hash = some (commit (bytesToWord ps.word) ps.salt ps.secretKey) →
        l.p1_guess_pending = true →
        allCorrect (evaluate l.p1_current_guess (bytesToWord ps.word)) = false →
        l.p1_guess_count = 6 →
        l.p2_guess_count = 5 →
        turn_player2 ps g l = Except.ok (turn_player2Body ps g l) ∧
        (turn_player2Body ps g l).game_state = GAME_STATE.draw ∧
        (turn_player2Body ps g l).p1_guess_count = 6 ∧
        (turn_player2Body ps g l).p2_guess_count = 6) ∧
    (∀ l : Ledger, Reachable l → l.game_state = GAME_STATE.draw →
        l.p1_guess_count = 6 ∧ l.p2_guess_count = 6 ∧
        (∀ r, l.p1_last_guess_result = some r → allCorrect r = false) ∧
        (∀ r, l.p2_last_guess_result = some r → allCorrect r = false)) := by
  constructor
  · intro ps g l hs hid hh hp hw hc1 hc2
    refine ⟨by simp [turn_player2, hs, hid, hh], ?_, ?_, ?_⟩
    · simp [turn_player2Body, hp, hw, hc1, hc2]
    · simpa [(turn_player2Body_frame ps g l).2.2.2.1] using hc1
    · simp [(turn_player2Body_frame ps g l).2.2.2.2.2.2.2, hc2]
  · intro l hr hdraw
    obtain ⟨h1, h2, h3, h4, h5⟩ := reachable_inv l hr
    have hne1 : l.game_state ≠ GAME_STATE.p1_wins := by
      rw [hdraw]; intro hx; cases hx
    have hne2 : l.game_state ≠ GAME_STATE.p2_wins := by
      rw [hdraw]; intro hx; cases hx
    exact ⟨(h3 hdraw).1, (h3 hdraw).2, h4 hne1, h5 hne2⟩

/-- C5 witness: the twelve-guess draw scenario of the test suite — after
player 1's sixth non-winning guess, player 2's sixth call ends in `DRAW`,
and the resulting reachable draw state has both counts equal to six. -/
theorem draw_iff_both_exhausted_witness :
    (turn_player2Body psSlate finalW (runActions initialLedger preDrawActs)).game_state =
      GAME_STATE.draw ∧
    (runActions initialLedger drawActs).p1_guess_count = 6 ∧
    (runActions initialLedger drawActs).p2_guess_count = 6 :=
  ⟨(draw_iff_both_exhausted.1 psSlate finalW (runActions initialLedger preDrawActs)
      (by decide) (by decide) (by decide) (by decide) (by decide) (by decide)
      (by decide)).2.1,
   (draw_iff_both_exhausted.2 (runActions initialLedger drawActs)
      ⟨drawActs, rfl⟩ (by decide)).1,
   (draw_iff_both_exhausted.2 (runActions initialLedger drawActs)
      ⟨drawActs, rfl⟩ (by decide)).2.1⟩

/-- C6: the join transitions — from `WAITING_P1` the first join stores
player 1's identity and commitment and moves to `WAITING_P2`, and fails
once player 1's slot is filled; from `WAITING_P2` the second join moves to
`P1_GUESS_TURN`, fails on a self-play attempt, and fails whenever the game
is not awaiting player 2. -/
theorem join_transitions :
    (∀ (ps : PrivateState) (l : Ledger), l.game_state = GAME_STATE.waiting_p1 →
        join_p1 ps l = Except.ok { l with
          game_state := GAME_STATE.waiting_p2
          p1 := some (public_key ps.secretKey)
          p1_word_hash := some (commit (bytesToWord ps.word) ps.salt ps.secretKey) }) ∧
    (∀ (ps : PrivateState) (l : Ledger), Reachable l → l.p1.isSome →
        ∃ e, join_p1 ps l = Except.error e) ∧
    (∀ (ps : PrivateState) (l : Ledger), l.game_state = GAME_STATE.waiting_p2 →
        l.p1 ≠ some (public_key ps.secretKey) →
        join_p2 ps l = Except.ok { l with
          game_state := GAME_STATE.p1_turn
          p2 := some (public_key ps.secretKey)
          p2_word_hash := some (commit (bytesToWord ps.word) ps.salt ps.secretKey) }) ∧
    (∀ (ps : PrivateState) (l : Ledger), l.game_state = GAME_STATE.waiting_p2 →
        l.p1 = some (public_key ps.secretKey) →
        join_p2 ps l = Except.error WordleError.cannotPlayAgainstYourself) ∧
    (∀ (ps : PrivateState) (l : Ledger), l.game_state ≠ GAME_STATE.waiting_p2 →
        join_p2 ps l = Except.error WordleError.gameNotWaitingP2) := by
  refine ⟨fun ps l hs => by simp [join_p1, hs], fun ps l hr hp1 => ?_,
    fun ps l hs hne => by simp [join_p2, hs, hne],
    fun ps l hs hself => by simp [join_p2, hs, hself],
    fun ps l hs => by simp [join_p2, hs]⟩
  have hs : l.game_state ≠ GAME_STATE.waiting_p1 := by
    intro hx
    rw [((reachable_inv l hr).1 hx).1] at hp1
    cases hp1
  exact ⟨WordleError.gameNotWaitingP1, by simp [join_p1, hs]⟩

/-- C6 witness: in the concrete game, player 1 joins from the initial state,
a second `join_p1` fails once the slot is filled, player 2 joins, the same
identity is rejected as self-play, and joining as player 2 before player 1
fails. -/
theorem join_transitions_witness :
    (∃ l2, join_p1 psCrane initialLedger = Except.ok l2) ∧
    (∃ e, join_p1 psCrane ledgerAfterP1Join = Except.error e) ∧
    (∃ l2, join_p2 psSlate ledgerAfterP1Join = Except.ok l2) ∧
    join_p2 psCrane ledgerAfterP1Join = Except.error WordleError.cannotPlayAgainstYourself ∧
    join_p2 psSlate initialLedger = Except.error WordleError.gameNotWaitingP2 :=
  ⟨⟨_, join_transitions.1 psCrane initialLedger (by decide)⟩,
   join_transitions.2.1 psCrane ledgerAfterP1Join
     ⟨[Action.joinP1 psCrane], rfl⟩ (by decide),
   ⟨_, join_transitions.2.2.1 psSlate ledgerAfterP1Join (by decide) (by decide)⟩,
   join_transitions.2.2.2.1 psCrane ledgerAfterP1Join (by decide) (by decide),
   join_transitions.2.2.2.2 psSlate initialLedger (by decide)⟩

/-- C7: once a player's word commitment is stored at join time, it is
unchanged by every subsequent sequence of operations — in every reachable
state, any further run of calls preserves each player's stored word hash. -/
theorem word_commitment_immutable :
    ∀ l : Ledger, Reachable l →
      (∀ c, l.p1_word_hash = some c →
        ∀ acts : List Action, (runActions l acts).p1_word_hash = some c) ∧
      (∀ c, l.p2_word_hash = some c →
        ∀ acts : List Action, (runActions l acts).p2_word_hash = some c) := by
  intro l hr
  have hInv := reachable_inv l hr
  exact ⟨fun c hc acts => (word_hash_runActions l acts hInv).1 c hc,
    fun c hc acts => (word_hash_runActions l acts hInv).2 c hc⟩

/-- C7 witness: in the concrete "CRANE" vs "SLATE" game, both commitments
recorded at join time survive a further round of guessing unchanged. -/
theorem word_commitment_immutable_witness :
    (runActions ledgerAfterJoins
        [Action.turnP1 psCrane wrongW, Action.turnP2 psSlate wrongW]).p1_word_hash =
      some (commit craneW [2] [1]) ∧
    (runActions ledgerAfterJoins
        [Action.turnP1 psCrane wrongW, Action.turnP2 psSlate wrongW]).p2_word_hash =
      some (commit slateW [4] [3]) :=
  ⟨(word_commitment_immutable ledgerAfterJoins
      ⟨[Action.joinP1 psCrane, Action.joinP2 psSlate], rfl⟩).1
      (commit craneW [2] [1]) (by decide)
      [Action.turnP1 psCrane wrongW, Action.turnP2 psSlate wrongW],
   (word_commitment_immutable ledgerAfterJoins
      ⟨[Action.joinP1 psCrane, Action.joinP2 psSlate], rfl⟩).2
      (commit slateW [4] [3]) (by decide)
      [Action.turnP1 psCrane wrongW, Action.turnP2 psSlate wrongW]⟩

/-- C8: every failed call leaves the ledger unchanged, and each listed
precondition violation (wrong state for either join, self-play, wrong turn
for either guess call, wrong caller identity for either guess call, and any
guess call in a terminal state) is rejected synchronously with its own
named failure; the named failures are pairwise distinct. -/
theorem precondition_failures_named :
    (∀ (l : Ledger) (a : Action) (e : WordleError),
        applyAction l a = Except.error e → stepOutcome l a = l) ∧
    (∀ (ps : PrivateState) (l : Ledger), l.game_state ≠ GAME_STATE.waiting_p1 →
        join_p1 ps l = Except.error WordleError.gameNotWaitingP1) ∧
    (∀ (ps : PrivateState) (l : Ledger), l.game_state ≠ GAME_STATE.waiting_p2 →
        join_p2 ps l = Except.error WordleError.gameNotWaitingP2) ∧
    (∀ (ps : PrivateState) (l : Ledger), l.game_state = GAME_STATE.waiting_p2 →
        l.p1 = some (public_key ps.secretKey) →
        join_p2 ps l = Except.error WordleError.cannotPlayAgainstYourself) ∧
    (∀ (ps : PrivateState) (g : Word) (l : Ledger),
        l.game_state ≠ GAME_STATE.p1_turn →
        turn_player1 ps g l = Except.error WordleError.notPlayer1GuessTurn) ∧
    (∀ (ps : PrivateState) (g : Word) (l : Ledger),
        l.game_state = GAME_STATE.p1_turn →
        l.p1 ≠ some (public_key ps.secretKey) →
        turn_player1 ps g l = Except.error WordleError.youAreNotPlayer1) ∧
    (∀ (ps : PrivateState) (g : Word) (l : Ledger),
        l.game_state ≠ GAME_STATE.p2_turn →
        turn_player2 ps g l = Except.error WordleError.notPlayer2GuessTurn) ∧
    (∀ (ps : PrivateState) (g : Word) (l : Ledger),
        l.game_state = GAME_STATE.p2_turn →
        l.p2 ≠ some (public_key ps.secretKey) →
        turn_player2 ps g l = Except.error WordleError.youAreNotPlayer2) ∧
    (∀ (ps : PrivateState) (g : Word) (l : Ledger),
        l.game_state = GAME_STATE.p1_wins ∨ l.game_state = GAME_STATE.p2_wins ∨
          l.game_state = GAME_STATE.draw →
        (∃ e1, turn_player1 ps g l = Except.error e1) ∧
        (∃ e2, turn_player2 ps g l = Except.error e2)) ∧
    ([WordleError.gameNotWaitingP1, WordleError.gameNotWaitingP2,
      WordleError.cannotPlayAgainstYourself, WordleError.notPlayer1GuessTurn,
      WordleError.notPlayer2GuessTurn, WordleError.youAreNotPlayer1,
      WordleError.youAreNotPlayer2] : List WordleError).Nodup := by
  refine ⟨fun l a e he => by simp [stepOutcome, he],
    fun ps l hs => by simp [join_p1, hs],
    fun ps l hs => by simp [join_p2, hs],
    fun ps l hs hself => by simp [join_p2, hs, hself],
    fun ps g l hs => by simp [turn_player1, hs],
    fun ps g l hs hid => by simp [turn_player1, hs, hid],
    fun ps g l hs => by simp [turn_player2, hs],
    fun ps g l hs hid => by simp [turn_player2, hs, hid],
    fun ps g l hterm => ?_, by decide⟩
  have hne1 : l.game_state ≠ GAME_STATE.p1_turn := by
    rcases hterm with h | h | h <;> rw [h] <;> intro hx <;> cases hx
  have hne2 : l.game_state ≠ GAME_STATE.p2_turn := by
    rcases hterm with h | h | h <;> rw [h] <;> intro hx <;> cases hx
  exact ⟨⟨WordleError.notPlayer1GuessTurn, by simp [turn_player1, hne1]⟩,
    ⟨WordleError.notPlayer2GuessTurn, by simp [turn_player2, hne2]⟩⟩

/-- C8 witness: a failed out-of-turn guess leaves the initial ledger
unchanged, a second `join_p1` fails with the waiting-for-player-1 failure,
an out-of-turn `turn_player1` fails with the wrong-turn failure, and a
guess after the draw of the concrete full game is rejected. -/
theorem precondition_failures_named_witness :
    stepOutcome initialLedger (Action.turnP1 psCrane wrongW) = initialLedger ∧
    join_p1 psCrane ledgerAfterP1Join = Except.error WordleError.gameNotWaitingP1 ∧
    turn_player1 psCrane wrongW initialLedger =
      Except.error WordleError.notPlayer1GuessTurn ∧
    (∃ e1, turn_player1 psCrane wrongW (runActions initialLedger drawActs) =
      Except.error e1) :=
  ⟨precondition_failures_named.1 initialLedger (Action.turnP1 psCrane wrongW)
     WordleError.notPlayer1GuessTurn rfl,
   precondition_failures_named.2.1 psCrane ledgerAfterP1Join (by decide),
   precondition_failures_named.2.2.2.2.1 psCrane wrongW initialLedger (by decide),
   (precondition_failures_named.2.2.2.2.2.2.2.2.1 psCrane wrongW
      (runActions initialLedger drawActs) (Or.inr (Or.inr (by decide)))).1⟩

/-- C9: the two players' guesses live in separate ledger fields — a
successful `turn_player2` records player 2's guess and increments player
2's count while leaving player 1's stored current guess, guess count,
identity and commitment untouched. -/
theorem turn_player2_preserves_p1_guess :
    ∀ (ps : PrivateState) (g : Word) (l l2 : Ledger),
      turn_player2 ps g l = Except.ok l2 →
      l2.p1_current_guess = l.p1_current_guess ∧
      l2.p1_guess_count = l.p1_guess_count ∧
      l2.p1 = l.p1 ∧
      l2.p1_word_hash = l.p1_word_hash ∧
      l2.p2_current_guess = g ∧
      l2.p2_guess_count = l.p2_guess_count + 1 := by
  intro ps g l l2 h
  unfold turn_player2 at h
  split at h
  · split at h
    · split at h
      · injection h with hb
        subst hb
        have hf := turn_player2Body_frame ps g l
        exact ⟨hf.2.2.1, hf.2.2.2.1, hf.1, hf.2.1, hf.2.2.2.2.2.2.1,
          hf.2.2.2.2.2.2.2⟩
      · exact Except.noConfusion h
    · exact Except.noConfusion h
  · exact Except.noConfusion h

/-- C9 witness: in the "HELLO" vs "WORLD" game, after player 1 guesses
"SWORD" and player 2 runs the combined verify-then-guess call with "JELLY",
player 1's stored current guess still starts with the letter S (code 83). -/
theorem turn_player2_preserves_p1_guess_witness :
    turn_player2 psWorld jellyW ledgerAfterSword =
      Except.ok (turn_player2Body psWorld jellyW ledgerAfterSword) ∧
    (turn_player2Body psWorld jellyW ledgerAfterSword).p1_current_guess =
      ledgerAfterSword.p1_current_guess ∧
    (turn_player2Body psWorld jellyW ledgerAfterSword).p1_current_guess.first_letter =
      83 :=
  ⟨rfl,
   (turn_player2_preserves_p1_guess psWorld jellyW ledgerAfterSword
      (turn_player2Body psWorld jellyW ledgerAfterSword) rfl).1,
   by decide⟩

end Wordle
